import Mathlib

/-!
Verification of the `urbint/ingest` pipeline library against its
natural-language specification.  The Go sources are shallowly embedded:
pure fragments become Lean functions, channel/goroutine interactions are
modelled by explicit state passing and serialized event traces, and Go
runtime panics (for example closing an already-closed channel) are made
explicit with `Except`.
-/

namespace Ingest

/-- Go runtime panics that the embedded code can raise. -/
inductive RuntimePanic where
  /-- `close` of an already-closed channel. -/
  | chanDoubleClose
  /-- `ChildBuilt called on a non-child Controller` (src/controller.go:37). -/
  | childBuiltOnRoot
  /-- a `reflect` operation on a value of the wrong kind, or a failed
      type assertion such as `srcVal.(map[string]interface{})`. -/
  | reflectPanic
  deriving Repr, DecidableEq

/-- State of a Go channel used only for its close signal: `true` means closed.
Closing an already-closed channel panics in Go. -/
def closeChan : Bool → Except RuntimePanic Bool
  | true => .error .chanDoubleClose
  | false => .ok true

/-- The run controller of src/controller.go, restricted to the state its
operations read and write: whether its `Quit` channel has been closed,
whether it has a parent (`parent != nil`), and the `childBuilt` latch.
The worker wait group is not represented: `Wait` blocks but does not
change state visible to the claims. -/
structure Controller where
  quitClosed : Bool
  hasParent : Bool
  childBuilt : Bool
  deriving Repr, DecidableEq

/-- `NewController` (src/controller.go:21): fresh error channel, open `Quit`,
no parent, latch not yet released. -/
def NewController : Controller :=
  { quitClosed := false, hasParent := false, childBuilt := false }

/-- `Controller.Abort` (src/controller.go:92-95): `close(c.Quit)` followed by
`c.Wait()`.  The close is unguarded, so aborting an already-aborted
controller is a double close. -/
def Controller.Abort (c : Controller) : Except RuntimePanic Controller :=
  match closeChan c.quitClosed with
  | .error p => .error p
  | .ok q => .ok { c with quitClosed := q }

/-- `Controller.ChildBuilt` (src/controller.go:32-47): panics on a
non-child controller; idempotent on a child thanks to the `childBuilt`
latch guarded by the mutex. -/
def Controller.ChildBuilt (c : Controller) : Except RuntimePanic Controller :=
  if !c.hasParent then .error .childBuiltOnRoot
  else if c.childBuilt then .ok c
  else .ok { c with childBuilt := true }

/-- `Controller.Child` (src/controller.go:120-141): the freshly built child
controller.  Its `Quit` channel is open, its parent pointer is set, and its
wait group is pre-incremented until `ChildBuilt` is called. -/
def Controller.Child (_ : Controller) : Controller :=
  { quitClosed := false, hasParent := true, childBuilt := false }

/-- The first case of `Controller.Error`'s `select` (src/controller.go:81-89)
to become ready, viewed at the error channel's serialization point: either
the earliest error sent on `c.Err` is delivered, or the `Done` channel
closes because every worker has exited. -/
inductive ErrorSelectEvent (E : Type) where
  | publish (e : E)
  | allExited
  deriving Repr, DecidableEq

/-- `c.Err` is unbuffered, so the publish that `Error` receives is the
earliest arrival in the channel's serialization order; if no worker ever
publishes, the `Done` branch fires. -/
def firstReadyEvent {E : Type} (arrivals : List E) : ErrorSelectEvent E :=
  match arrivals with
  | [] => .allExited
  | e :: _ => .publish e

/-- `Controller.Error` (src/controller.go:81-89): on receiving an error it
closes `Quit` and returns the error; if all workers exit first it
returns `nil` (here `none`) and leaves `Quit` alone. -/
def Controller.ErrorOp {E : Type} (c : Controller) (ev : ErrorSelectEvent E) :
    Except RuntimePanic (Option E × Controller) :=
  match ev with
  | .publish e =>
      match closeChan c.quitClosed with
      | .error p => .error p
      | .ok q => .ok (some e, { c with quitClosed := q })
  | .allExited => .ok (none, c)

/-- The controller operations performed by `Downloader.Start`
(src/download.go:61-84): it creates a child controller from the passed-in
controller, starts the workers, and — by the `defer` on line 65 — calls
`ChildBuilt` on the controller that was *passed in*, not on the child it
created.  Returns the passed-in controller after the deferred call and the
child controller. -/
def Downloader.StartCtrl (ctrl : Controller) :
    Except RuntimePanic (Controller × Controller) :=
  let childCtrl := ctrl.Child
  match ctrl.ChildBuilt with
  | .error p => .error p
  | .ok ctrl' => .ok (ctrl', childCtrl)

/-- C1, counterexample.  The claim says a second `abort()` is safe.  On the
code, `Abort` closes `Quit` with no latch, so aborting a freshly built
controller twice is a double close of the `Quit` channel — a Go runtime
panic, not a safe no-op. -/
theorem abort_twice_panics :
    (NewController.Abort.bind Controller.Abort) =
      Except.error RuntimePanic.chanDoubleClose := by
  rfl

/-- C1, amended.  The first `abort()` on a controller whose abort signal is
still open closes the signal exactly once; but a second `abort()` — or an
`abort()` after `error()` has received an error and closed the signal —
panics on the double close rather than being a safe no-op. -/
theorem abort_not_idempotent (c : Controller) (h : c.quitClosed = false) :
    c.Abort = .ok { c with quitClosed := true } ∧
    (∀ c', c.Abort = .ok c' → c'.Abort = .error .chanDoubleClose) ∧
    (∀ (e : Unit) c' r, c.ErrorOp (.publish e) = .ok (r, c') →
      c'.Abort = .error .chanDoubleClose) := by
  refine ⟨?_, ?_, ?_⟩
  · simp [Controller.Abort, closeChan, h]
  · intro c' habort
    simp [Controller.Abort, closeChan, h] at habort
    simp [Controller.Abort, ← habort, closeChan]
  · intro e c' r herr
    simp [Controller.ErrorOp, closeChan, h] at herr
    simp [Controller.Abort, ← herr.2, closeChan]

/-- C1, witness for `abort_not_idempotent` at the freshly built
controller. -/
theorem abort_not_idempotent_witness :
    NewController.quitClosed = false ∧
    NewController.Abort = .ok { NewController with quitClosed := true } :=
  ⟨rfl, (abort_not_idempotent NewController rfl).1⟩

/-- C2.  With the error channel's arrivals serialized as a list, `Error`
returns exactly the first error received and closes the abort signal after
receiving it; when no worker ever publishes and all workers exit, `Error`
returns `nil` and the abort signal stays open. -/
theorem error_first_wins {E : Type} (arrivals : List E) (c : Controller)
    (hq : c.quitClosed = false) :
    (∀ e rest, arrivals = e :: rest →
      c.ErrorOp (firstReadyEvent arrivals) =
        .ok (some e, { c with quitClosed := true })) ∧
    (arrivals = [] → c.ErrorOp (firstReadyEvent arrivals) = .ok (none, c)) := by
  constructor
  · intro e rest harr
    subst harr
    simp [firstReadyEvent, Controller.ErrorOp, closeChan, hq]
  · intro harr
    subst harr
    simp [firstReadyEvent, Controller.ErrorOp]

/-- C2, witness: one worker publishes error `7`; `Error` returns it and the
abort signal ends closed. -/
theorem error_first_wins_witness :
    NewController.quitClosed = false ∧
    NewController.ErrorOp (firstReadyEvent [7]) =
      .ok (some 7, { NewController with quitClosed := true }) :=
  ⟨rfl, (error_first_wins [7] NewController rfl).1 7 [] rfl⟩

/-- C9.  `Downloader.Start` defers `ChildBuilt` on the controller that was
passed in (src/download.go:65) instead of on the child it creates; on any
controller without a parent — such as one from `NewController` — that
deferred call panics, while calling `ChildBuilt` on the child controller
would have succeeded. -/
theorem downloader_start_panics_on_root (c : Controller)
    (h : c.hasParent = false) :
    Downloader.StartCtrl c = .error .childBuiltOnRoot ∧
    c.Child.ChildBuilt = .ok { c.Child with childBuilt := true } := by
  constructor
  · simp [Downloader.StartCtrl, Controller.ChildBuilt, h]
  · simp [Controller.ChildBuilt, Controller.Child]

/-- C9, witness: `Downloader.Start` on a freshly built controller panics. -/
theorem downloader_start_panics_on_root_witness :
    NewController.hasParent = false ∧
    Downloader.StartCtrl NewController = .error .childBuiltOnRoot :=
  ⟨rfl, (downloader_start_panics_on_root NewController rfl).1⟩

/-! ## Download stage (src/download.go) -/

/-- `DownloadCopyBlockBytes` (src/download.go:12): how many bytes are written
between checks for aborts; default 256000.  It is a mutable package
variable in the source, so the copy loop below is parameterized by the
block size `B` and instantiated with this default. -/
def DownloadCopyBlockBytes : Nat := 256000

/-- One iteration of `DownloadURL`'s copy loop (src/download.go:145-159):
how many bytes `io.CopyN` moved and whether `reportProgress` was invoked
after the copy (the source calls it only when `CopyN` returns an error,
which for a reader of known length means the final short read). -/
structure CopyEvent where
  copied : Nat
  progressReported : Bool
  deriving Repr, DecidableEq

/-- Outcome of `DownloadURL` for a URL that did not resolve to an
already-local file. -/
inductive DownloadOutcome where
  /-- `io.CopyN` hit `io.EOF`: the destination file handle is returned and
      the worker then emits it on the output queue
      (src/download.go:152-153, 200). -/
  | completedFile
  /-- the abort signal was observed between blocks: `ErrAborted`
      (src/download.go:147-148). -/
  | abortedErr
  deriving Repr, DecidableEq

/-- The trace of `io.CopyN` calls made by `DownloadURL`'s copy loop
(src/download.go:145-159) on a remote reader holding `remaining` bytes,
with block size `B`.  `abortAt = some k` means the abort signal is
observed by the `select` at the start of iteration `k` (iterations are
counted from `iter`); `none` means the signal never closes during the
copy.  Each full block is copied with `err == nil`, so `reportProgress`
is *not* called for it; the final short read returns `io.EOF`, reports
progress once, and ends the loop.  (With `B = 0` the Go loop would spin
forever; the model returns the empty trace for that out-of-scope
configuration — every claim uses the default block size.) -/
def copyLoopEvents (B : Nat) (abortAt : Option Nat) (iter remaining : Nat) :
    List CopyEvent :=
  if B = 0 then []
  else if abortAt = some iter then []
  else if _h : remaining ≥ B then
    ⟨B, false⟩ :: copyLoopEvents B abortAt (iter + 1) (remaining - B)
  else [⟨remaining, true⟩]
termination_by remaining
decreasing_by omega

/-- The result of the same loop: aborted between blocks, or completed with
the destination file handle (same recursion as `copyLoopEvents`). -/
def copyLoopResult (B : Nat) (abortAt : Option Nat) (iter remaining : Nat) :
    DownloadOutcome :=
  if B = 0 then .completedFile
  else if abortAt = some iter then .abortedErr
  else if _h : remaining ≥ B then
    copyLoopResult B abortAt (iter + 1) (remaining - B)
  else .completedFile
termination_by remaining
decreasing_by omega

/-- `DownloadURL`'s copy loop at the default block size. -/
def Downloader.downloadCopyEvents (abortAt : Option Nat) (iter remaining : Nat) :
    List CopyEvent :=
  copyLoopEvents DownloadCopyBlockBytes abortAt iter remaining

/-- `DownloadURL`'s copy-loop outcome at the default block size. -/
def Downloader.downloadCopyResult (abortAt : Option Nat) (iter remaining : Nat) :
    DownloadOutcome :=
  copyLoopResult DownloadCopyBlockBytes abortAt iter remaining

/-! ## Unzip stage (src/unzip.go) -/

/-- An inner entry of a zip archive: its header name, whether
`inside.Open()` fails for it, and an identifier for the reader that a
successful open yields. -/
structure ZipEntry where
  name : String
  openFails : Bool
  id : Nat
  deriving Repr, DecidableEq

/-- Model of the stdlib collaborator `filepath.Match` restricted to the
`*` and `?` metacharacters (character classes and pattern errors are not
exercised by any claim). -/
def globMatchList : List Char → List Char → Bool
  | [], [] => true
  | [], _ :: _ => false
  | '*' :: ps, s =>
      globMatchList ps s ||
        (match s with
         | [] => false
         | _ :: ss => globMatchList ('*' :: ps) ss)
  | '?' :: _, [] => false
  | '?' :: ps, _ :: ss => globMatchList ps ss
  | _ :: _, [] => false
  | p :: ps, c :: ss => p = c && globMatchList ps ss
termination_by ps s => ps.length + s.length

/-- `Unzipper.filterMatch` (src/unzip.go:188-198): an empty filter matches
everything, otherwise the name is matched against the glob pattern. -/
def Unzipper.filterMatch (filter : String) (fileName : String) : Bool :=
  if filter = "" then true
  else globMatchList filter.toList fileName.toList

/-- Outcome of `Unzipper.UnzipFile` (src/unzip.go:154-185): on success, the
readers opened (in entry order, after the filter); on an open failure, the
error return after the loop at src/unzip.go:171-173 has closed every
previously opened reader — `closedReaders` records exactly the readers
closed before the error is returned. -/
inductive UnzipOutcome where
  | success (readers : List Nat)
  | failure (closedReaders : List Nat)
  deriving Repr, DecidableEq

/-- The entry loop of `Unzipper.UnzipFile` (src/unzip.go:163-180), with
`result` as the accumulator of opened readers. -/
def Unzipper.unzipFileLoop (filter : String) :
    List ZipEntry → List Nat → UnzipOutcome
  | [], result => .success result
  | e :: rest, result =>
    if Unzipper.filterMatch filter e.name then
      if e.openFails then .failure result
      else Unzipper.unzipFileLoop filter rest (result ++ [e.id])
    else Unzipper.unzipFileLoop filter rest result

/-- `Unzipper.UnzipFile` (src/unzip.go:154-185). -/
def Unzipper.UnzipFile (filter : String) (entries : List ZipEntry) :
    UnzipOutcome :=
  Unzipper.unzipFileLoop filter entries []

/-- What `startUnzipWorker` (src/unzip.go:119-149) emits on the output
queue for one archive: the opened readers when `UnzipFile` succeeds,
nothing when it returns an error (the error is published on `ctrl.Err`
instead). -/
def Unzipper.workerEmits (filter : String) (entries : List ZipEntry) :
    List Nat :=
  match Unzipper.UnzipFile filter entries with
  | .success readers => readers
  | .failure _ => []

/-- The readers opened before the first failing entry: every filtered-in,
successfully opened entry preceding the first filtered-in entry whose open
fails. -/
def openedBeforeFirstFailure (filter : String) : List ZipEntry → List Nat
  | [] => []
  | e :: rest =>
    if Unzipper.filterMatch filter e.name then
      if e.openFails then []
      else e.id :: openedBeforeFirstFailure filter rest
    else openedBeforeFirstFailure filter rest

theorem unzipFileLoop_failure (filter : String) (entries : List ZipEntry) :
    ∀ (acc closed : List Nat),
      Unzipper.unzipFileLoop filter entries acc = .failure closed →
      closed = acc ++ openedBeforeFirstFailure filter entries := by
  induction entries with
  | nil => intro acc closed h; simp [Unzipper.unzipFileLoop] at h
  | cons e rest ih =>
    intro acc closed h
    rw [Unzipper.unzipFileLoop] at h
    by_cases hf : Unzipper.filterMatch filter e.name
    · rw [if_pos hf] at h
      by_cases ho : e.openFails
      · rw [if_pos ho] at h
        cases h
        simp [openedBeforeFirstFailure, hf, ho]
      · rw [if_neg ho] at h
        have := ih (acc ++ [e.id]) closed h
        simp [openedBeforeFirstFailure, hf, ho, this]
    · rw [if_neg hf] at h
      have := ih acc closed h
      simp [openedBeforeFirstFailure, hf, this]

/-- C7.  If opening an inner entry of an archive fails, `UnzipFile` closes
exactly the readers it had previously opened for that archive before
returning the error, and the worker emits no reader from that archive on
the output queue. -/
theorem unzip_closes_opened_on_error (filter : String)
    (entries : List ZipEntry) (closed : List Nat)
    (h : Unzipper.UnzipFile filter entries = .failure closed) :
    closed = openedBeforeFirstFailure filter entries ∧
    Unzipper.workerEmits filter entries = [] := by
  constructor
  · have := unzipFileLoop_failure filter entries [] closed h
    simpa using this
  · simp [Unzipper.workerEmits, h]

/-- C7, witness: an archive whose third entry fails to open; the two
readers opened before it are the ones closed, and nothing is emitted. -/
theorem unzip_closes_opened_on_error_witness :
    Unzipper.UnzipFile ""
        [⟨"a.csv", false, 1⟩, ⟨"b.csv", false, 2⟩, ⟨"c.csv", true, 3⟩] =
      .failure [1, 2] ∧
    [1, 2] = openedBeforeFirstFailure ""
        [⟨"a.csv", false, 1⟩, ⟨"b.csv", false, 2⟩, ⟨"c.csv", true, 3⟩] ∧
    Unzipper.workerEmits ""
        [⟨"a.csv", false, 1⟩, ⟨"b.csv", false, 2⟩, ⟨"c.csv", true, 3⟩] = [] := by
  refine ⟨by decide, ?_, ?_⟩
  · exact (unzip_closes_opened_on_error ""
      [⟨"a.csv", false, 1⟩, ⟨"b.csv", false, 2⟩, ⟨"c.csv", true, 3⟩]
      [1, 2] (by decide)).1
  · exact (unzip_closes_opened_on_error ""
      [⟨"a.csv", false, 1⟩, ⟨"b.csv", false, 2⟩, ⟨"c.csv", true, 3⟩]
      [1, 2] (by decide)).2

theorem copyLoopEvents_none_sum (B : Nat) (hB : B ≠ 0) : ∀ (i n : Nat),
    ((copyLoopEvents B none i n).map CopyEvent.copied).sum = n := by
  intro i n
  induction i, n using copyLoopEvents.induct B none with
  | case1 i n h0 => exact absurd h0 hB
  | case2 i n h0 hc => exact absurd hc (fun h => Option.noConfusion h)
  | case3 i n h0 hc hge ih =>
      rw [copyLoopEvents.eq_def, if_neg h0,
        if_neg (fun h => Option.noConfusion h), dif_pos hge]
      simp only [List.map_cons, List.sum_cons, ih]
      show B + (n - B) = n
      omega
  | case4 i n h0 hc hge =>
      rw [copyLoopEvents.eq_def, if_neg h0,
        if_neg (fun h => Option.noConfusion h), dif_neg hge]
      simp

theorem copyLoopEvents_none_filter (B : Nat) (hB : B ≠ 0) : ∀ (i n : Nat),
    (copyLoopEvents B none i n).filter (fun ev => ev.progressReported) =
      [⟨n % B, true⟩] := by
  intro i n
  induction i, n using copyLoopEvents.induct B none with
  | case1 i n h0 => exact absurd h0 hB
  | case2 i n h0 hc => exact absurd hc (fun h => Option.noConfusion h)
  | case3 i n h0 hc hge ih =>
      rw [copyLoopEvents.eq_def, if_neg h0,
        if_neg (fun h => Option.noConfusion h), dif_pos hge]
      rw [List.filter_cons]
      simp only [decide_eq_true_eq]
      rw [if_neg (by simp)]
      rw [ih]
      have hmod : (n - B) % B = n % B := by
        conv_rhs => rw [← Nat.sub_add_cancel hge]
        rw [Nat.add_mod_right]
      rw [hmod]
  | case4 i n h0 hc hge =>
      rw [copyLoopEvents.eq_def, if_neg h0,
        if_neg (fun h => Option.noConfusion h), dif_neg hge]
      rw [List.filter_cons]
      simp only [decide_eq_true_eq]
      rw [if_pos (by simp)]
      rw [Nat.mod_eq_of_lt (by omega)]
      simp

theorem copyLoopEvents_none_fullBlocks (B : Nat) (hB : B ≠ 0) : ∀ (i n : Nat),
    ∀ ev ∈ copyLoopEvents B none i n,
      ev.progressReported = false → ev.copied = B := by
  intro i n
  induction i, n using copyLoopEvents.induct B none with
  | case1 i n h0 => exact absurd h0 hB
  | case2 i n h0 hc => exact absurd hc (fun h => Option.noConfusion h)
  | case3 i n h0 hc hge ih =>
      rw [copyLoopEvents.eq_def, if_neg h0,
        if_neg (fun h => Option.noConfusion h), dif_pos hge]
      intro ev hev hrep
      rcases List.mem_cons.mp hev with h | h
      · rw [h]
      · exact ih ev h hrep
  | case4 i n h0 hc hge =>
      rw [copyLoopEvents.eq_def, if_neg h0,
        if_neg (fun h => Option.noConfusion h), dif_neg hge]
      intro ev hev hrep
      simp at hev
      rw [hev] at hrep
      simp at hrep

theorem copyLoopResult_none (B : Nat) : ∀ (i n : Nat),
    copyLoopResult B none i n = .completedFile := by
  intro i n
  induction i, n using copyLoopResult.induct B none with
  | case1 i n h0 => rw [copyLoopResult.eq_def, if_pos h0]
  | case2 i n h0 hc => exact absurd hc (fun h => Option.noConfusion h)
  | case3 i n h0 hc hge ih =>
      rw [copyLoopResult.eq_def, if_neg h0,
        if_neg (fun h => Option.noConfusion h), dif_pos hge]
      exact ih
  | case4 i n h0 hc hge =>
      rw [copyLoopResult.eq_def, if_neg h0,
        if_neg (fun h => Option.noConfusion h), dif_neg hge]

theorem copyLoopResult_abort (B : Nat) (hB : B ≠ 0) (k : Nat) : ∀ (i n : Nat),
    i ≤ k → k - i ≤ n / B →
    copyLoopResult B (some k) i n = .abortedErr := by
  intro i n
  induction i, n using copyLoopResult.induct B (some k) with
  | case1 i n h0 => exact absurd h0 hB
  | case2 i n h0 hc =>
      intro _ _
      rw [copyLoopResult.eq_def, if_neg h0, if_pos hc]
  | case3 i n h0 hc hge ih =>
      intro hik hreach
      rw [copyLoopResult.eq_def, if_neg h0, if_neg hc, dif_pos hge]
      simp only [Option.some.injEq] at hc
      have hdiv : n / B = (n - B) / B + 1 := Nat.div_eq_sub_div (by omega) hge
      apply ih
      · omega
      · omega
  | case4 i n h0 hc hge =>
      intro hik hreach
      simp only [Option.some.injEq] at hc
      have hz : n / B = 0 := Nat.div_eq_of_lt (by omega)
      exact absurd rfl (by omega : ¬(0 : Nat) = 0)

theorem copyLoopEvents_abort_sum (B : Nat) (hB : B ≠ 0) (k : Nat) :
    ∀ (i n : Nat), i ≤ k → k - i ≤ n / B →
    ((copyLoopEvents B (some k) i n).map CopyEvent.copied).sum =
      (k - i) * B := by
  intro i n
  induction i, n using copyLoopEvents.induct B (some k) with
  | case1 i n h0 => exact absurd h0 hB
  | case2 i n h0 hc =>
      intro _ _
      rw [copyLoopEvents.eq_def, if_neg h0, if_pos hc]
      simp only [Option.some.injEq] at hc
      subst hc
      simp
  | case3 i n h0 hc hge ih =>
      intro hik hreach
      rw [copyLoopEvents.eq_def, if_neg h0, if_neg hc, dif_pos hge]
      simp only [Option.some.injEq] at hc
      simp only [List.map_cons, List.sum_cons]
      have hdiv : n / B = (n - B) / B + 1 := Nat.div_eq_sub_div (by omega) hge
      rw [ih (by omega) (by omega)]
      show B + (k - (i + 1)) * B = (k - i) * B
      have hki : k - i = (k - (i + 1)) + 1 := by omega
      rw [hki]
      ring
  | case4 i n h0 hc hge =>
      intro hik hreach
      simp only [Option.some.injEq] at hc
      have hz : n / B = 0 := Nat.div_eq_of_lt (by omega)
      exact absurd rfl (by omega : ¬(0 : Nat) = 0)

theorem copyLoopEvents_abort_filter (B : Nat) (hB : B ≠ 0) (k : Nat) :
    ∀ (i n : Nat), i ≤ k → k - i ≤ n / B →
    (copyLoopEvents B (some k) i n).filter (fun ev => ev.progressReported) =
      [] := by
  intro i n
  induction i, n using copyLoopEvents.induct B (some k) with
  | case1 i n h0 => exact absurd h0 hB
  | case2 i n h0 hc =>
      intro _ _
      rw [copyLoopEvents.eq_def, if_neg h0, if_pos hc]
      simp
  | case3 i n h0 hc hge ih =>
      intro hik hreach
      rw [copyLoopEvents.eq_def, if_neg h0, if_neg hc, dif_pos hge]
      simp only [Option.some.injEq] at hc
      rw [List.filter_cons]
      simp only [decide_eq_true_eq]
      rw [if_neg (by simp)]
      have hdiv : n / B = (n - B) / B + 1 := Nat.div_eq_sub_div (by omega) hge
      exact ih (by omega) (by omega)
  | case4 i n h0 hc hge =>
      intro hik hreach
      simp only [Option.some.injEq] at hc
      have hz : n / B = 0 := Nat.div_eq_of_lt (by omega)
      exact absurd rfl (by omega : ¬(0 : Nat) = 0)

/-- C6, counterexample.  The claim says a progress event is reported after
each block copied.  On a 512000-byte download the copy loop makes two full
256000-byte block copies with no progress report (`io.CopyN` returned
`nil`, so `reportProgress` is skipped) and reports progress exactly once,
on the final `io.EOF` read of 0 bytes. -/
theorem download_progress_not_per_block :
    Downloader.downloadCopyEvents none 0 512000 =
      [⟨256000, false⟩, ⟨256000, false⟩, ⟨0, true⟩] ∧
    ¬ (∀ ev ∈ Downloader.downloadCopyEvents none 0 512000,
        0 < ev.copied → ev.progressReported = true) := by
  have h : Downloader.downloadCopyEvents none 0 512000 =
      [⟨256000, false⟩, ⟨256000, false⟩, ⟨0, true⟩] := by
    rw [Downloader.downloadCopyEvents, copyLoopEvents.eq_def]
    norm_num [DownloadCopyBlockBytes]
    rw [copyLoopEvents.eq_def]
    norm_num
    rw [copyLoopEvents.eq_def]
    norm_num
    simp
  refine ⟨h, ?_⟩
  intro hall
  have := hall ⟨256000, false⟩ (by rw [h]; simp) (by norm_num)
  simp at this

/-- C6, amended.  For a URL that does not resolve to an already-local file,
the worker copies in fixed blocks of `DownloadCopyBlockBytes` (default
256000) bytes, checking the abort signal between blocks; but progress is
reported exactly once per URL — when `io.CopyN` returns an error (the
final short read of `n % 256000` bytes at end of data) — rather than after
each block, and this single report happens before the worker emits the
completed file handle on the output queue.  If the abort signal is
observed at the start of iteration `k` before the copy finishes, the loop
stops having copied exactly `k` full blocks, with no progress report. -/
theorem download_copy_behavior (n k : Nat)
    (hk : k ≤ n / DownloadCopyBlockBytes) :
    Downloader.downloadCopyResult none 0 n = .completedFile ∧
    ((Downloader.downloadCopyEvents none 0 n).map CopyEvent.copied).sum = n ∧
    (Downloader.downloadCopyEvents none 0 n).filter
        (fun ev => ev.progressReported) =
      [⟨n % DownloadCopyBlockBytes, true⟩] ∧
    (∀ ev ∈ Downloader.downloadCopyEvents none 0 n,
        ev.progressReported = false → ev.copied = DownloadCopyBlockBytes) ∧
    Downloader.downloadCopyResult (some k) 0 n = .abortedErr ∧
    ((Downloader.downloadCopyEvents (some k) 0 n).map CopyEvent.copied).sum =
      k * DownloadCopyBlockBytes ∧
    (Downloader.downloadCopyEvents (some k) 0 n).filter
        (fun ev => ev.progressReported) = [] := by
  have hB : DownloadCopyBlockBytes ≠ 0 := by norm_num [DownloadCopyBlockBytes]
  refine ⟨copyLoopResult_none _ 0 n,
    copyLoopEvents_none_sum _ hB 0 n,
    copyLoopEvents_none_filter _ hB 0 n,
    copyLoopEvents_none_fullBlocks _ hB 0 n,
    copyLoopResult_abort _ hB k 0 n (Nat.zero_le k) (by simpa using hk),
    ?_,
    copyLoopEvents_abort_filter _ hB k 0 n (Nat.zero_le k) (by simpa using hk)⟩
  have := copyLoopEvents_abort_sum _ hB k 0 n (Nat.zero_le k) (by simpa using hk)
  simpa using this

/-- C6, witness for `download_copy_behavior`: a 512000-byte download with
an abort scheduled at iteration 1. -/
theorem download_copy_behavior_witness :
    (1 : Nat) ≤ 512000 / DownloadCopyBlockBytes ∧
    Downloader.downloadCopyResult none 0 512000 = .completedFile ∧
    Downloader.downloadCopyResult (some 1) 0 512000 = .abortedErr :=
  ⟨by norm_num [DownloadCopyBlockBytes],
   (download_copy_behavior 512000 1 (by norm_num [DownloadCopyBlockBytes])).1,
   (download_copy_behavior 512000 1
      (by norm_num [DownloadCopyBlockBytes])).2.2.2.2.1⟩

/-! ## JSON decoder (src/parse/json.go)

The token stream of Go's `encoding/json.Decoder` is embedded as a list of
tokens.  Values that decode successfully into the target record shape are
kept opaque as single pseudo-tokens `value n` (standing for the record
`rₙ`); `badValue n` stands for a value that `Decode` consumes but fails to
unmarshal into the record (a `*json.UnmarshalTypeError`).  Composite
values that are *not* records appear as balanced runs of `delim`/`str`
tokens, which `Decode` consumes wholesale and fails to unmarshal into a
record target. -/

inductive JToken where
  | delim (c : Char)
  | str (s : String)
  | value (n : Nat)
  | badValue (n : Nat)
  deriving Repr, DecidableEq

/-- Go's `token == nestIn[0]` on src/parse/json.go:206: an interface
comparison between a token and a Go string, true only when the token is a
string equal to it (`json.Delim` and numbers never equal a string). -/
def tokenEqString : JToken → String → Bool
  | .str s, t => s == t
  | _, _ => false

/-- An error from `decoder.Token()` during navigation — `io.EOF` when the
document runs out before the selection is satisfied. -/
inductive NavError where
  | tokenErr
  deriving Repr, DecidableEq

/-- The token-scanning half of one iteration of `navigateToSelection`'s
loop (src/parse/json.go:197-215) for a fixed non-empty head component:
pull tokens until one matches the component — a string token equal to it,
or, when the component is `*`, a `[` delimiter — discarding everything
else; `decoder.Token()` failing (end of document) is the `tokenErr`
error. -/
def seekComponent (comp : String) : List JToken → Except NavError (List JToken)
  | [] => .error .tokenErr
  | tok :: more =>
    if tokenEqString tok comp then .ok more
    else if comp = "*" then
      if tok = .delim '[' then .ok more
      else seekComponent comp more
    else seekComponent comp more

/-- `navigateToSelection` (src/parse/json.go:195-217): split into the
component loop — an empty component is dropped without consuming tokens
(src/parse/json.go:198-200), a non-empty component scans tokens via
`seekComponent` — over the components of `strings.Split(selection, ".")`. -/
def navigateToSelection : List String → List JToken → Except NavError (List JToken)
  | [], toks => .ok toks
  | comp :: rest, toks =>
    if comp = "" then navigateToSelection rest toks
    else
      match seekComponent comp toks with
      | .error e => .error e
      | .ok more => navigateToSelection rest more

/-- `decoder.More()` (used at src/parse/json.go:172): whether another value
exists in the current array or object — false at a closing delimiter or at
end of stream. -/
def jsonMore : List JToken → Bool
  | [] => false
  | .delim ']' :: _ => false
  | .delim '}' :: _ => false
  | _ => true

/-- Skip the remainder of a composite value, given the current nesting
depth (the opening delimiter has already been consumed); `none` when the
document ends inside the value (a syntax error in the stream). -/
def nextDepth (depth : Nat) : JToken → Nat
  | .delim '{' => depth + 1
  | .delim '[' => depth + 1
  | .delim '}' => depth - 1
  | .delim ']' => depth - 1
  | _ => depth

/-- Skip the remainder of a composite value, given the current nesting
depth (the opening delimiter has already been consumed); `none` when the
document ends inside the value (a syntax error in the stream). -/
def consumeComposite : Nat → List JToken → Option (List JToken)
  | _, [] => none
  | depth, tok :: more =>
    if nextDepth depth tok = 0 then some more
    else consumeComposite (nextDepth depth tok) more

/-- What one `decoder.Decode(rec)` call produced. -/
inductive JDecodeOutcome where
  /-- the value unmarshalled into the record (the record `rₙ`). -/
  | decodedRec (n : Nat)
  /-- the value was consumed but could not be unmarshalled into the record
      shape (`*json.UnmarshalTypeError`); `rec` keeps whatever fields were
      filled before the mismatch. -/
  | typeMismatch
  deriving Repr, DecidableEq

/-- One `decoder.Decode(rec)` call (src/parse/json.go:176): consume the
next complete value.  A bare string or a composite value that is not a
record consumes fully but fails to unmarshal into the record target; `none`
is a syntax error (no complete value available). -/
def decodeOneValue : List JToken → Option (JDecodeOutcome × List JToken)
  | [] => none
  | .value n :: more => some (.decodedRec n, more)
  | .badValue _ :: more => some (.typeMismatch, more)
  | .str _ :: more => some (.typeMismatch, more)
  | .delim c :: more =>
    if c = '{' ∨ c = '[' then
      match consumeComposite 1 more with
      | some rest => some (.typeMismatch, rest)
      | none => none
    else none

theorem consumeComposite_length : ∀ (d : Nat) (toks rest : List JToken),
    consumeComposite d toks = some rest → rest.length < toks.length := by
  intro d toks
  induction toks generalizing d with
  | nil => intro rest h; simp [consumeComposite] at h
  | cons tok more ih =>
    intro rest h
    rw [consumeComposite] at h
    split at h
    · cases h
      simp
    · have := ih _ _ h
      simp only [List.length_cons]
      omega

theorem decodeOneValue_length : ∀ (toks : List JToken) (o : JDecodeOutcome)
    (rest : List JToken), decodeOneValue toks = some (o, rest) →
    rest.length < toks.length := by
  intro toks o rest h
  match toks with
  | [] => simp [decodeOneValue] at h
  | .value n :: more => simp [decodeOneValue] at h; simp [h.2.symm]
  | .badValue n :: more => simp [decodeOneValue] at h; simp [h.2.symm]
  | .str s :: more => simp [decodeOneValue] at h; simp [h.2.symm]
  | .delim c :: more =>
    rw [decodeOneValue] at h
    split at h
    · cases hc : consumeComposite 1 more with
      | some r2 =>
          rw [hc] at h
          simp only [Option.some.injEq, Prod.mk.injEq] at h
          rw [← h.2]
          have := consumeComposite_length 1 more r2 hc
          simp only [List.length_cons]
          omega
      | none => rw [hc] at h; cases h
    · cases h

/-- A record emitted on the output queue by the JSON decode loop. -/
inductive EmittedRec where
  /-- a fully decoded record `rₙ`. -/
  | okRec (n : Nat)
  /-- a freshly allocated record whose decode failed: it is emitted anyway,
      holding only what was filled before the failure. -/
  | errRec
  deriving Repr, DecidableEq

/-- Errors sent on the `errs` channel by `JSONParser.Decode`. -/
inductive JErr where
  | typeErr
  | syntaxErr
  | navErr
  deriving Repr, DecidableEq

/-- The decode loop of `JSONParser.Decode` (src/parse/json.go:167-190)
after navigation, for a run in which the abort signal never closes: while
`More()`, allocate a record, `Decode` into it — on error, send the error
on `errs`, and return if `AbortOnError`; otherwise fall through — then
send the record on the output channel.  Note the record is emitted even
when its decode failed. -/
def decodeLoop (abortOnError : Bool) (toks : List JToken) :
    List EmittedRec × List JErr :=
  if jsonMore toks then
    match h : decodeOneValue toks with
    | none =>
        if abortOnError then ([], [.syntaxErr])
        else ([.errRec], [.syntaxErr])
    | some (.decodedRec n, rest) =>
        match decodeLoop abortOnError rest with
        | (es, errs) => (.okRec n :: es, errs)
    | some (.typeMismatch, rest) =>
        if abortOnError then ([], [.typeErr])
        else
          match decodeLoop abortOnError rest with
          | (es, errs) => (.errRec :: es, .typeErr :: errs)
  else ([], [])
termination_by toks.length
decreasing_by
  all_goals exact decodeOneValue_length _ _ _ h

/-- Number of `decoder.Decode` calls the loop makes on this stream when
`AbortOnError` is false (the loop only stops early on a syntax error,
after which `More()` is false). -/
def decodeAttempts (toks : List JToken) : Nat :=
  if jsonMore toks then
    match h : decodeOneValue toks with
    | none => 1
    | some (_, rest) => 1 + decodeAttempts rest
  else 0
termination_by toks.length
decreasing_by
  all_goals exact decodeOneValue_length _ _ _ h

/-- Number of those `Decode` calls that succeed. -/
def successfulDecodes (toks : List JToken) : Nat :=
  if jsonMore toks then
    match h : decodeOneValue toks with
    | none => 0
    | some (.decodedRec _, rest) => 1 + successfulDecodes rest
    | some (.typeMismatch, rest) => successfulDecodes rest
  else 0
termination_by toks.length
decreasing_by
  all_goals exact decodeOneValue_length _ _ _ h

/-- The component splitter of the Go source, `strings.Split(selection, ".")`
(src/parse/json.go:196), modelled for the single-character separator the
source uses: splitting the empty string yields `[""]`, and each separator
occurrence starts a new component. -/
def splitChars (sep : Char) : List Char → List (List Char)
  | [] => [[]]
  | c :: rest =>
    if c = sep then [] :: splitChars sep rest
    else
      match splitChars sep rest with
      | [] => [[c]]
      | w :: ws => (c :: w) :: ws

/-- `strings.Split` on a single-character separator. -/
def stringsSplit (sep : Char) (s : String) : List String :=
  (splitChars sep s.toList).map (fun cs => String.mk cs)

/-- `JSONParser.Decode` (src/parse/json.go:155-193) on one reader:
navigate to the selection (an error there is sent on `errs` and ends the
decode with no emissions), then run the decode loop. -/
def JSONParser.Decode (abortOnError : Bool) (selection : String)
    (doc : List JToken) : List EmittedRec × List JErr :=
  match navigateToSelection (stringsSplit '.' selection) doc with
  | .error _ => ([], [.navErr])
  | .ok rest => decodeLoop abortOnError rest

/-- The token stream of the document `{"a":{"b":[r1,r2,r3]}}`, with the
records `r1,r2,r3` opaque. -/
def docAB : List JToken :=
  [.delim '{', .str "a", .delim '{', .str "b", .delim '[',
   .value 1, .value 2, .value 3, .delim ']', .delim '}', .delim '}']

theorem decodeLoop_nil (a : Bool) : decodeLoop a [] = ([], []) := by
  rw [decodeLoop]
  simp [jsonMore]

theorem decodeLoop_not_more (a : Bool) (toks : List JToken)
    (hmore : jsonMore toks = false) : decodeLoop a toks = ([], []) := by
  rw [decodeLoop]
  simp [hmore]

theorem decodeLoop_closeBracket (a : Bool) (rest : List JToken) :
    decodeLoop a (.delim ']' :: rest) = ([], []) :=
  decodeLoop_not_more a _ rfl

theorem decodeLoop_closeBrace (a : Bool) (rest : List JToken) :
    decodeLoop a (.delim '}' :: rest) = ([], []) :=
  decodeLoop_not_more a _ rfl

theorem decodeLoop_eq_none (a : Bool) (toks : List JToken)
    (hmore : jsonMore toks = true) (hval : decodeOneValue toks = none) :
    decodeLoop a toks =
      if a then ([], [.syntaxErr]) else ([.errRec], [.syntaxErr]) := by
  rw [decodeLoop, if_pos hmore]
  split
  · next _ => split <;> rfl
  · next n2 r2 heq => rw [hval] at heq; cases heq
  · next r2 heq => rw [hval] at heq; cases heq

theorem decodeLoop_eq_dec (a : Bool) (toks : List JToken) (n : Nat)
    (rest : List JToken) (hmore : jsonMore toks = true)
    (hval : decodeOneValue toks = some (.decodedRec n, rest)) :
    decodeLoop a toks =
      (.okRec n :: (decodeLoop a rest).1, (decodeLoop a rest).2) := by
  rw [decodeLoop, if_pos hmore]
  split
  · next heq => rw [hval] at heq; cases heq
  · next n2 r2 heq =>
      rw [hval] at heq
      injection heq with heq2
      injection heq2 with ho hr
      injection ho with hn
      subst hn; subst hr
      rfl
  · next r2 heq => rw [hval] at heq; cases heq

theorem decodeLoop_eq_mis (a : Bool) (toks rest : List JToken)
    (hmore : jsonMore toks = true)
    (hval : decodeOneValue toks = some (.typeMismatch, rest)) :
    decodeLoop a toks =
      if a then ([], [.typeErr])
      else (.errRec :: (decodeLoop a rest).1,
            .typeErr :: (decodeLoop a rest).2) := by
  rw [decodeLoop, if_pos hmore]
  split
  · next heq => rw [hval] at heq; cases heq
  · next n2 r2 heq => rw [hval] at heq; cases heq
  · next r2 heq =>
      rw [hval] at heq
      injection heq with heq2
      injection heq2 with ho hr
      subst hr
      split <;> rfl

theorem decodeLoop_eq_mis_false (toks rest : List JToken)
    (hmore : jsonMore toks = true)
    (hval : decodeOneValue toks = some (.typeMismatch, rest)) :
    decodeLoop false toks =
      (.errRec :: (decodeLoop false rest).1,
       .typeErr :: (decodeLoop false rest).2) := by
  rw [decodeLoop_eq_mis false toks rest hmore hval]
  rfl

theorem decodeAttempts_eq_none (toks : List JToken)
    (hmore : jsonMore toks = true) (hval : decodeOneValue toks = none) :
    decodeAttempts toks = 1 := by
  rw [decodeAttempts, if_pos hmore]
  split
  · rfl
  · next o2 r2 heq => rw [hval] at heq; cases heq

theorem decodeAttempts_eq_some (toks : List JToken) (o : JDecodeOutcome)
    (rest : List JToken) (hmore : jsonMore toks = true)
    (hval : decodeOneValue toks = some (o, rest)) :
    decodeAttempts toks = 1 + decodeAttempts rest := by
  rw [decodeAttempts, if_pos hmore]
  split
  · next heq => rw [hval] at heq; cases heq
  · next o2 r2 heq =>
      rw [hval] at heq
      injection heq with heq2
      injection heq2 with ho hr
      subst hr
      rfl

theorem decodeAttempts_not_more (toks : List JToken)
    (hmore : jsonMore toks = false) : decodeAttempts toks = 0 := by
  rw [decodeAttempts]
  simp [hmore]

theorem successfulDecodes_eq_none (toks : List JToken)
    (hmore : jsonMore toks = true) (hval : decodeOneValue toks = none) :
    successfulDecodes toks = 0 := by
  rw [successfulDecodes, if_pos hmore]
  split
  · rfl
  · next n2 r2 heq => rw [hval] at heq; cases heq
  · next r2 heq => rw [hval] at heq; cases heq

theorem successfulDecodes_eq_dec (toks : List JToken) (n : Nat)
    (rest : List JToken) (hmore : jsonMore toks = true)
    (hval : decodeOneValue toks = some (.decodedRec n, rest)) :
    successfulDecodes toks = 1 + successfulDecodes rest := by
  rw [successfulDecodes, if_pos hmore]
  split
  · next heq => rw [hval] at heq; cases heq
  · next n2 r2 heq =>
      rw [hval] at heq
      injection heq with heq2
      injection heq2 with ho hr
      subst hr
      rfl
  · next r2 heq => rw [hval] at heq; cases heq

theorem successfulDecodes_eq_mis (toks rest : List JToken)
    (hmore : jsonMore toks = true)
    (hval : decodeOneValue toks = some (.typeMismatch, rest)) :
    successfulDecodes toks = successfulDecodes rest := by
  rw [successfulDecodes, if_pos hmore]
  split
  · next heq => rw [hval] at heq; cases heq
  · next n2 r2 heq => rw [hval] at heq; cases heq
  · next r2 heq =>
      rw [hval] at heq
      injection heq with heq2
      injection heq2 with ho hr
      subst hr
      rfl

theorem successfulDecodes_not_more (toks : List JToken)
    (hmore : jsonMore toks = false) : successfulDecodes toks = 0 := by
  rw [successfulDecodes]
  simp [hmore]

theorem decodeLoop_value (a : Bool) (n : Nat) (rest : List JToken) :
    decodeLoop a (.value n :: rest) =
      (.okRec n :: (decodeLoop a rest).1, (decodeLoop a rest).2) :=
  decodeLoop_eq_dec a _ n rest rfl rfl

theorem decodeLoop_badValue_false (m : Nat) (rest : List JToken) :
    decodeLoop false (.badValue m :: rest) =
      (.errRec :: (decodeLoop false rest).1,
       .typeErr :: (decodeLoop false rest).2) :=
  decodeLoop_eq_mis_false _ rest rfl rfl

theorem decodeLoop_openDelim_false (c : Char) (hc : c = '{' ∨ c = '[')
    (rest r2 : List JToken) (hcc : consumeComposite 1 rest = some r2) :
    decodeLoop false (.delim c :: rest) =
      (.errRec :: (decodeLoop false r2).1,
       .typeErr :: (decodeLoop false r2).2) := by
  have hmore : jsonMore (.delim c :: rest) = true := by
    rcases hc with h | h <;> subst h <;> rfl
  have hval : decodeOneValue (.delim c :: rest) = some (.typeMismatch, r2) := by
    rw [decodeOneValue, if_pos hc, hcc]
  exact decodeLoop_eq_mis_false _ r2 hmore hval

/-- The counts of the decode loop with `AbortOnError = false`: one record
emitted per decode attempt; successes plus reported errors make up the
emissions. -/
theorem decodeLoop_false_counts (toks : List JToken) :
    (decodeLoop false toks).1.length = decodeAttempts toks ∧
    (decodeLoop false toks).1.length =
      successfulDecodes toks + (decodeLoop false toks).2.length := by
  induction toks using decodeAttempts.induct with
  | case1 toks hmore hval =>
      rw [decodeLoop_eq_none false toks hmore hval,
        decodeAttempts_eq_none toks hmore hval,
        successfulDecodes_eq_none toks hmore hval]
      simp
  | case2 toks hmore o rest hval ih =>
      cases o with
      | decodedRec n =>
          rw [decodeLoop_eq_dec false toks n rest hmore hval,
            decodeAttempts_eq_some toks _ rest hmore hval,
            successfulDecodes_eq_dec toks n rest hmore hval]
          obtain ⟨ih1, ih2⟩ := ih
          constructor
          · dsimp only
            simp only [List.length_cons, ih1]
            omega
          · dsimp only
            simp only [List.length_cons, ih2]
            omega
      | typeMismatch =>
          rw [decodeLoop_eq_mis_false toks rest hmore hval,
            decodeAttempts_eq_some toks _ rest hmore hval,
            successfulDecodes_eq_mis toks rest hmore hval]
          obtain ⟨ih1, ih2⟩ := ih
          constructor
          · dsimp only
            simp only [List.length_cons, ih1]
            omega
          · dsimp only
            simp only [List.length_cons, ih2]
            omega
  | case3 toks hmore =>
      have hmore2 : jsonMore toks = false := by
        cases hj : jsonMore toks
        · rfl
        · exact absurd hj hmore
      rw [decodeLoop_not_more false toks hmore2,
        decodeAttempts_not_more toks hmore2,
        successfulDecodes_not_more toks hmore2]
      exact ⟨rfl, rfl⟩

/-- Empty selection components are skipped without consuming tokens, so
navigation behaves as if they were absent. -/
theorem navigateToSelection_filter_empty (comps : List String) :
    ∀ toks, navigateToSelection comps toks =
      navigateToSelection (comps.filter (fun c => c ≠ "")) toks := by
  induction comps with
  | nil => intro toks; rfl
  | cons comp rest ih =>
    intro toks
    by_cases hc : comp = ""
    · subst hc
      exact ih toks
    · have hf : List.filter (fun c => decide (c ≠ "")) (comp :: rest) =
          comp :: List.filter (fun c => decide (c ≠ "")) rest := by
        simp [hc]
      show navigateToSelection (comp :: rest) toks =
        navigateToSelection (List.filter (fun c => decide (c ≠ "")) (comp :: rest)) toks
      rw [hf]
      cases hseek : seekComponent comp toks with
      | error e =>
          rw [navigateToSelection, if_neg hc, hseek]
          rw [navigateToSelection, if_neg hc, hseek]
      | ok more =>
          rw [navigateToSelection, if_neg hc, hseek]
          rw [navigateToSelection, if_neg hc, hseek]
          exact ih more

/-- C3, counterexample.  The claim says selection `a.b` emits `r1,r2,r3`.
On the code, navigation for `a.b` stops after matching the key `"b"`
*without* consuming the array's `[` delimiter, so the single following
`Decode` call consumes the entire array `[r1,r2,r3]` as one value — a type
mismatch against the record shape.  With `AbortOnError = false` the run
emits one failed record and reports one error instead of `r1,r2,r3`. -/
theorem json_selection_ab_counterexample :
    (JSONParser.Decode false "a.b" docAB).1 ≠
      [.okRec 1, .okRec 2, .okRec 3] ∧
    JSONParser.Decode false "a.b" docAB = ([.errRec], [.typeErr]) := by
  have hsplit : stringsSplit '.' "a.b" = ["a", "b"] := by decide
  have hnav : navigateToSelection ["a", "b"] docAB =
      .ok [.delim '[', .value 1, .value 2, .value 3,
           .delim ']', .delim '}', .delim '}'] := rfl
  have hcc : consumeComposite 1
      [.value 1, .value 2, .value 3, .delim ']', .delim '}', .delim '}'] =
      some [.delim '}', .delim '}'] := rfl
  have hd : JSONParser.Decode false "a.b" docAB =
      decodeLoop false [.delim '[', .value 1, .value 2, .value 3,
        .delim ']', .delim '}', .delim '}'] := by
    rw [JSONParser.Decode, hsplit, hnav]
  have h : JSONParser.Decode false "a.b" docAB = ([.errRec], [.typeErr]) := by
    rw [hd, decodeLoop_openDelim_false '[' (Or.inr rfl) _ _ hcc,
      decodeLoop_closeBrace]
  exact ⟨by rw [h]; simp, h⟩

/-- C3, amended.  For the document `{"a":{"b":[r1,r2,r3]}}`: selection
`a.*` (and likewise `a.b.*`) emits `r1,r2,r3` in order; selection `a.b`
stops navigation before the array's `[`, so the decoder makes a single
decode attempt on the whole array — one type-mismatch error and one failed
record emission when `AbortOnError = false`; and a selection containing
empty components (e.g. `..a.b`) behaves as if the empty components were
absent (in general, navigation ignores empty components). -/
theorem json_selection_behavior :
    (JSONParser.Decode false "a.*" docAB).1 =
      [.okRec 1, .okRec 2, .okRec 3] ∧
    (JSONParser.Decode false "a.b.*" docAB).1 =
      [.okRec 1, .okRec 2, .okRec 3] ∧
    JSONParser.Decode false "a.b" docAB = ([.errRec], [.typeErr]) ∧
    JSONParser.Decode false "..a.b" docAB =
      JSONParser.Decode false "a.b" docAB ∧
    (∀ comps toks, navigateToSelection comps toks =
        navigateToSelection (comps.filter (fun c => c ≠ "")) toks) := by
  have harr : navigateToSelection ["a", "*"] docAB =
      .ok [.value 1, .value 2, .value 3,
           .delim ']', .delim '}', .delim '}'] := rfl
  have harr2 : navigateToSelection ["a", "b", "*"] docAB =
      .ok [.value 1, .value 2, .value 3,
           .delim ']', .delim '}', .delim '}'] := rfl
  have hvals : decodeLoop false
      [.value 1, .value 2, .value 3, .delim ']', .delim '}', .delim '}'] =
      ([.okRec 1, .okRec 2, .okRec 3], []) := by
    rw [decodeLoop_value, decodeLoop_value, decodeLoop_value,
      decodeLoop_closeBracket]
  have hnavab : navigateToSelection ["a", "b"] docAB =
      .ok [.delim '[', .value 1, .value 2, .value 3,
           .delim ']', .delim '}', .delim '}'] := rfl
  have hcc : consumeComposite 1
      [.value 1, .value 2, .value 3, .delim ']', .delim '}', .delim '}'] =
      some [.delim '}', .delim '}'] := rfl
  have hdab : JSONParser.Decode false "a.b" docAB =
      decodeLoop false [.delim '[', .value 1, .value 2, .value 3,
        .delim ']', .delim '}', .delim '}'] := by
    rw [JSONParser.Decode, show stringsSplit '.' "a.b" = ["a", "b"] from by
      decide, hnavab]
  have hab : JSONParser.Decode false "a.b" docAB = ([.errRec], [.typeErr]) := by
    rw [hdab, decodeLoop_openDelim_false '[' (Or.inr rfl) _ _ hcc,
      decodeLoop_closeBrace]
  refine ⟨?_, ?_, hab, ?_, fun comps => navigateToSelection_filter_empty comps⟩
  · have hd : JSONParser.Decode false "a.*" docAB =
        decodeLoop false [.value 1, .value 2, .value 3,
          .delim ']', .delim '}', .delim '}'] := by
      rw [JSONParser.Decode, show stringsSplit '.' "a.*" = ["a", "*"] from by
        decide, harr]
    rw [hd, hvals]
  · have hd : JSONParser.Decode false "a.b.*" docAB =
        decodeLoop false [.value 1, .value 2, .value 3,
          .delim ']', .delim '}', .delim '}'] := by
      rw [JSONParser.Decode,
        show stringsSplit '.' "a.b.*" = ["a", "b", "*"] from by decide, harr2]
    rw [hd, hvals]
  · have hnav2 : navigateToSelection ["", "", "a", "b"] docAB =
        .ok [.delim '[', .value 1, .value 2, .value 3,
             .delim ']', .delim '}', .delim '}'] := rfl
    have hd : JSONParser.Decode false "..a.b" docAB =
        decodeLoop false [.delim '[', .value 1, .value 2, .value 3,
          .delim ']', .delim '}', .delim '}'] := by
      rw [JSONParser.Decode,
        show stringsSplit '.' "..a.b" = ["", "", "a", "b"] from by decide,
        hnav2]
    rw [hd, hdab]

/-- C10.  With `AbortOnError = false`, every failed `Decode` call reports
the error on the error channel and still emits the freshly allocated,
partially-decoded record on the output queue: the number of emitted
records equals the number of decode attempts (successes plus reported
errors), not the number of successful decodes. -/
theorem json_partial_records_emitted (toks : List JToken) :
    (decodeLoop false toks).1.length = decodeAttempts toks ∧
    (decodeLoop false toks).1.length =
      successfulDecodes toks + (decodeLoop false toks).2.length ∧
    (∀ (m : Nat) (rest : List JToken),
      decodeLoop false (.badValue m :: rest) =
        (.errRec :: (decodeLoop false rest).1,
         .typeErr :: (decodeLoop false rest).2)) :=
  ⟨(decodeLoop_false_counts toks).1, (decodeLoop_false_counts toks).2,
   decodeLoop_badValue_false⟩

/-! ## CSV decoder (src/unnamed/part_002, package parse)

The record shape seen through Go's `reflect` is embedded as a tree: a
field is a `csv` tag (the empty string when the tag is absent, exactly as
`reflect.StructTag.Get` reports it) together with a type that is either a
non-struct leaf (classified by the kinds the decode switch handles), a
struct, or a pointer to a struct.  `time.Time` is modelled as a leaf kind
carrying the `time.Parse` result; no claim exercises time-typed fields. -/

inductive ScalarKind where
  | sString
  | sFloat32
  | sInt
  | sInt8
  | sUint8
  | sUint16
  | sUint32
  | sTime
  /-- any other non-struct field type: matched by no case of the decode
      switch, so decoding into it is an `Unhandled type` error. -/
  | sOther
  deriving Repr, DecidableEq

mutual
inductive GoType where
  | scalar (k : ScalarKind)
  | struc (fields : FieldList)
  | ptrStruc (fields : FieldList)

inductive FieldList where
  | fnil
  | fcons (csvTag : String) (ty : GoType) (rest : FieldList)
end

/-- Model of the stdlib collaborator `strings.TrimSpace`. -/
def goTrimSpace (s : String) : String :=
  String.mk
    (((s.toList.dropWhile Char.isWhitespace).reverse.dropWhile
        Char.isWhitespace).reverse)

/-- Model of `strings.TrimRight` with a one-character cut set. -/
def goTrimRight (s : String) (c : Char) : String :=
  String.mk ((s.toList.reverse.dropWhile (fun x => x = c)).reverse)

/-- The field scan of `findFieldInStruct` (src/unnamed/part_002:493-521)
from field index `i`: a struct-kind or pointer-to-struct field is searched
recursively (its own tag is never consulted); any other field matches when
its `csv` tag — the empty string when absent — equals `fieldName`
case-sensitively.  No match returns the empty path and `false`. -/
def findFieldFrom (fieldName : String) (i : Nat) : FieldList → List Nat × Bool
  | .fnil => ([], false)
  | .fcons _ (.struc fs) rest =>
      match findFieldFrom fieldName 0 fs with
      | (nested, true) => (i :: nested, true)
      | (_, false) => findFieldFrom fieldName (i + 1) rest
  | .fcons _ (.ptrStruc fs) rest =>
      match findFieldFrom fieldName 0 fs with
      | (nested, true) => (i :: nested, true)
      | (_, false) => findFieldFrom fieldName (i + 1) rest
  | .fcons tag (.scalar _) rest =>
      if tag = fieldName then ([i], true)
      else findFieldFrom fieldName (i + 1) rest

/-- `findFieldInStruct` (src/unnamed/part_002:493-521). -/
def findFieldInStruct (fieldName : String) (fields : FieldList) :
    List Nat × Bool :=
  findFieldFrom fieldName 0 fields

/-- `CSVParser.parseHeaderForType` (src/unnamed/part_002:384-393): each
column of the observed header is independently resolved to the path of
nested field indices found for its trimmed cell — the `found` flag is
discarded, so an unmatched column keeps the empty path. -/
def CSVParser.parseHeaderForType (header : List String) (fields : FieldList) :
    List (List Nat) :=
  header.map (fun cell => (findFieldInStruct (goTrimSpace cell) fields).1)

/-- A leaf field value of a record under construction. -/
inductive FieldVal where
  | vString (s : String)
  /-- float32 values are kept syntactic (the accepted literal); IEEE
      semantics are out of scope for every claim. -/
  | vFloat32 (lit : Option String)
  | vInt (n : Int)
  | vInt8 (n : Int)
  | vUint8 (n : Nat)
  | vUint16 (n : Nat)
  | vUint32 (n : Nat)
  /-- a parsed time is kept as the (layout, input) pair accepted by the
      `time.Parse` model; `none` is the zero time. -/
  | vTime (parsed : Option (String × String))
  | vOther
  deriving Repr, DecidableEq

mutual
inductive GoValue where
  | scalarV (v : FieldVal)
  | strucV (vs : ValueList)
  /-- the zero value of a pointer-to-struct field: a nil pointer. -/
  | nilPtrV

inductive ValueList where
  | vnil
  | vcons (v : GoValue) (rest : ValueList)
end

def zeroFieldVal : ScalarKind → FieldVal
  | .sString => .vString ""
  | .sFloat32 => .vFloat32 none
  | .sInt => .vInt 0
  | .sInt8 => .vInt8 0
  | .sUint8 => .vUint8 0
  | .sUint16 => .vUint16 0
  | .sUint32 => .vUint32 0
  | .sTime => .vTime none
  | .sOther => .vOther

mutual
/-- The zero value of a type — what `newRec` allocates. -/
def zeroValue : GoType → GoValue
  | .scalar k => .scalarV (zeroFieldVal k)
  | .struc fs => .strucV (zeroValues fs)
  | .ptrStruc _ => .nilPtrV

def zeroValues : FieldList → ValueList
  | .fnil => .vnil
  | .fcons _ ty rest => .vcons (zeroValue ty) (zeroValues rest)
end

/-- Digits of a decimal literal, `none` when empty or non-digit. -/
def decDigits : List Char → Option Nat
  | [] => none
  | cs =>
    if cs.all Char.isDigit then
      some (cs.foldl (fun acc c => acc * 10 + (c.toNat - 48)) 0)
    else none

/-- Model of `strconv.ParseUint(s, 10, bits)`: digits only (no sign), in
range for `bits` bits. -/
def goParseUint (bits : Nat) (s : String) : Option Nat :=
  match decDigits s.toList with
  | none => none
  | some v => if v < 2 ^ bits then some v else none

/-- Model of `strconv.ParseInt(s, 10, bits)` and (at 64 bits)
`strconv.Atoi`: optional sign, digits, two's-complement range check. -/
def goParseInt (bits : Nat) (s : String) : Option Int :=
  let (neg, ds) : Bool × List Char :=
    match s.toList with
    | '+' :: r => (false, r)
    | '-' :: r => (true, r)
    | r => (false, r)
  match decDigits ds with
  | none => none
  | some v =>
    if neg then
      if v ≤ 2 ^ (bits - 1) then some (-(v : Int)) else none
    else
      if v < 2 ^ (bits - 1) then some (v : Int) else none

/-- Model of the syntax accepted by `strconv.ParseFloat`: optional sign, a
mantissa with at least one digit and at most one point, an optional
exponent.  The accepted literal is returned verbatim; rounding and range
behavior are out of scope. -/
def goParseFloat (s : String) : Option String :=
  let cs : List Char :=
    match s.toList with
    | '+' :: r => r
    | '-' :: r => r
    | r => r
  let ip := cs.takeWhile Char.isDigit
  let r1 := cs.dropWhile Char.isDigit
  let expOk : List Char → Bool := fun r =>
    match r with
    | [] => true
    | 'e' :: t =>
        let t2 : List Char :=
          match t with
          | '+' :: u => u
          | '-' :: u => u
          | u => u
        !t2.isEmpty && t2.all Char.isDigit
    | 'E' :: t =>
        let t2 : List Char :=
          match t with
          | '+' :: u => u
          | '-' :: u => u
          | u => u
        !t2.isEmpty && t2.all Char.isDigit
    | _ => false
  let ok : Bool :=
    match r1 with
    | '.' :: fr =>
        let fd := fr.takeWhile Char.isDigit
        let r2 := fr.dropWhile Char.isDigit
        (!ip.isEmpty || !fd.isEmpty) && expOk r2
    | r => !ip.isEmpty && expOk r
  if ok then some s else none

/-- Model of the stdlib collaborator `time.Parse layout value`: the value
must align with the layout — digits where the layout has digits, the same
character elsewhere. -/
def goTimeParse (layout s : String) : Option (String × String) :=
  if layout.toList.length = s.toList.length &&
      (layout.toList.zip s.toList).all
        (fun p => if p.1.isDigit then p.2.isDigit else p.1 = p.2) then
    some (layout, s)
  else none

/-- The CSV options the row decoder reads (src/unnamed/part_002:137-146). -/
structure CSVParserOpts where
  abortOnError : Bool
  trimSpaces : Bool
  trimFloats : Bool
  dateFormat : String
  deriving Repr, DecidableEq

/-- The defaults set by `NewCSVParser` (src/unnamed/part_002:149-159). -/
def defaultCSVOpts : CSVParserOpts :=
  { abortOnError := false, trimSpaces := true, trimFloats := false,
    dateFormat := "01/02/2006" }

/-- The type switch on the selected field (src/unnamed/part_002:420-475):
coerce the cell into the field's kind, or fail with a decode error. -/
def coerceCell (opts : CSVParserOpts) (cell : String) :
    FieldVal → Except String FieldVal
  | .vString _ =>
      let str := if opts.trimSpaces then goTrimSpace cell else cell
      let str :=
        if opts.trimFloats then goTrimRight (goTrimRight str '0') '.' else str
      .ok (.vString str)
  | .vFloat32 _ =>
      match goParseFloat cell with
      | some lit => .ok (.vFloat32 (some lit))
      | none => .error "Error parsing float"
  | .vInt _ =>
      match goParseInt 64 cell with
      | some v => .ok (.vInt v)
      | none => .error "Error parsing int"
  | .vInt8 _ =>
      match goParseInt 8 cell with
      | some v => .ok (.vInt8 v)
      | none => .error "Error parsing int"
  | .vUint8 _ =>
      match goParseUint 8 cell with
      | some v => .ok (.vUint8 v)
      | none => .error "Error parsing uint"
  | .vUint16 _ =>
      match goParseUint 16 cell with
      | some v => .ok (.vUint16 v)
      | none => .error "Error parsing uint"
  | .vUint32 _ =>
      match goParseUint 32 cell with
      | some v => .ok (.vUint32 v)
      | none => .error "Error parsing uint"
  | .vTime _ =>
      match goTimeParse opts.dateFormat cell with
      | some t => .ok (.vTime (some t))
      | none => .error "Error parsing date"
  | .vOther => .error "Unhandled type"

def valueAt : ValueList → Nat → Option GoValue
  | .vnil, _ => none
  | .vcons v _, 0 => some v
  | .vcons _ rest, n + 1 => valueAt rest n

def setValueAt : ValueList → Nat → GoValue → ValueList
  | .vnil, _, _ => .vnil
  | .vcons _ rest, 0, v2 => .vcons v2 rest
  | .vcons v rest, n + 1, v2 => .vcons v (setValueAt rest n v2)

/-- Result of writing one cell through a field path. -/
inductive SetResult where
  /-- `reflect` panicked: `Field` on a non-struct value (a path through a
      nil pointer or a scalar) or an out-of-range index. -/
  | panicked
  /-- the type switch hit an unhandled type or the coercion failed:
      `*CSVDecodeError`. -/
  | decodeFail (msg : String)
  | updated (v : GoValue)

/-- The field traversal `field = field.Field(fieldIndex)` followed by the
coercion switch (src/unnamed/part_002:415-475). -/
def setAtPath (opts : CSVParserOpts) (cell : String) :
    GoValue → List Nat → SetResult
  | .scalarV fv, [] =>
      match coerceCell opts cell fv with
      | .ok fv2 => .updated (.scalarV fv2)
      | .error m => .decodeFail m
  | .strucV _, [] => .decodeFail "Unhandled type"
  | .nilPtrV, [] => .decodeFail "Unhandled type"
  | .strucV vs, i :: restPath =>
      match valueAt vs i with
      | none => .panicked
      | some child =>
        match setAtPath opts cell child restPath with
        | .updated child2 => .updated (.strucV (setValueAt vs i child2))
        | r => r
  | .scalarV _, _ :: _ => .panicked
  | .nilPtrV, _ :: _ => .panicked

/-- Result of `parseRowWithFieldMap`. -/
inductive RowResult where
  | panicked
  /-- `(nil, *CSVDecodeError)` returned on the first failing cell. -/
  | rowDecodeErr (msg : String)
  | okRec (v : GoValue)

/-- The column loop of `parseRowWithFieldMap`
(src/unnamed/part_002:406-476), from column `j`: a column whose path is
empty or whose cell is empty is skipped, leaving the record untouched;
otherwise the cell is coerced into the field selected by the path.  The
`CSVUnmarshaler` fast path (src/unnamed/part_002:398-403) delegates to a
user-supplied row decoder — an external collaborator, not modelled. -/
def parseRowCols (opts : CSVParserOpts) (fieldMap : List (List Nat)) :
    List String → Nat → GoValue → RowResult
  | [], _, acc => .okRec acc
  | cell :: rest, j, acc =>
    if fieldMap.getD j [] = [] ∨ cell = "" then
      parseRowCols opts fieldMap rest (j + 1) acc
    else
      match setAtPath opts cell acc (fieldMap.getD j []) with
      | .updated acc2 => parseRowCols opts fieldMap rest (j + 1) acc2
      | .decodeFail m => .rowDecodeErr m
      | .panicked => .panicked

/-- `CSVParser.parseRowWithFieldMap` (src/unnamed/part_002:396-413) on the
reflective path: start from a freshly allocated zero record and fill it
column by column. -/
def CSVParser.parseRowWithFieldMap (opts : CSVParserOpts) (row : List String)
    (fieldMap : List (List Nat)) (ty : FieldList) : RowResult :=
  parseRowCols opts fieldMap row 0 (.strucV (zeroValues ty))

/-- The kinds of `*csv.ParseError` (`encoding/csv`) that the worker
inspects. -/
inductive CSVParseErrKind where
  | errFieldCount
  | errQuote
  | errBareQuote
  | errTrailingComma
  deriving Repr, DecidableEq

/-- An error received by the CSV worker from `Decode`'s error channel. -/
inductive GoCSVError where
  /-- a `*csv.ParseError` from the `encoding/csv` reader. -/
  | parseError (k : CSVParseErrKind)
  /-- a `*CSVDecodeError` from the row decoder. -/
  | csvDecodeError (msg : String)
  /-- anything else. -/
  | otherError (msg : String)
  deriving Repr, DecidableEq

/-- What the worker does with one received error. -/
inductive WorkerStep where
  /-- logged at warning level; the worker keeps consuming. -/
  | warned (logMsg : String)
  /-- sent on `ctrl.Err`; the worker returns. -/
  | published (e : GoCSVError)
  deriving Repr, DecidableEq

/-- The error dispatch of `startDecodeWorker`
(src/unnamed/part_002:357-371): with `AbortOnError` every error is
published and the worker returns; otherwise a `*csv.ParseError` whose
inner error is `csv.ErrFieldCount`, or a `*CSVDecodeError`, is logged at
warning level and the worker continues, and any other error is published
and terminates the worker. -/
def handleDecodeError (abortOnError : Bool) (e : GoCSVError) : WorkerStep :=
  if abortOnError then .published e
  else
    match e with
    | .parseError .errFieldCount => .warned "Error parsing CSV Row"
    | .csvDecodeError _ => .warned "Error decoding CSV Row"
    | e2 => .published e2

/-- The worker's drain loop over the errors produced by one `Decode` call
(src/unnamed/part_002:353-373): warnings accumulate and consumption
continues; the first published error ends the worker. -/
def drainDecodeErrors (abortOnError : Bool) :
    List GoCSVError → List String × Option GoCSVError
  | [] => ([], none)
  | e :: rest =>
    match handleDecodeError abortOnError e with
    | .warned m =>
        match drainDecodeErrors abortOnError rest with
        | (ws, p) => (m :: ws, p)
    | .published e2 => ([], some e2)

/-- The per-record errors of §7: a CSV field-count parse error or a row
decode error. -/
def isPerRowError : GoCSVError → Bool
  | .parseError .errFieldCount => true
  | .csvDecodeError _ => true
  | _ => false

theorem findFieldFrom_not_found (name : String) : ∀ (i : Nat) (fl : FieldList),
    (findFieldFrom name i fl).2 = false → (findFieldFrom name i fl).1 = [] := by
  intro i fl
  induction i, fl using findFieldFrom.induct name with
  | case1 i => intro _; rfl
  | case2 i csvTag fs rest nested heq ihfs =>
      intro hfound
      simp only [findFieldFrom, heq] at hfound
      exact Bool.noConfusion hfound
  | case3 i csvTag fs rest fst heq ihfs ihrest =>
      intro hfound
      simp only [findFieldFrom, heq] at hfound ⊢
      exact ihrest hfound
  | case4 i csvTag fs rest nested heq ihfs =>
      intro hfound
      simp only [findFieldFrom, heq] at hfound
      exact Bool.noConfusion hfound
  | case5 i csvTag fs rest fst heq ihfs ihrest =>
      intro hfound
      simp only [findFieldFrom, heq] at hfound ⊢
      exact ihrest hfound
  | case6 i k rest =>
      intro hfound
      simp [findFieldFrom] at hfound
  | case7 i tag k rest htag ihrest =>
      intro hfound
      simp only [findFieldFrom, if_neg htag] at hfound ⊢
      exact ihrest hfound

theorem parseHeaderForType_getD (fields : FieldList) : ∀ (header : List String)
    (j : Nat), j < header.length →
    (CSVParser.parseHeaderForType header fields).getD j [] =
      (findFieldInStruct (goTrimSpace (header.getD j "")) fields).1 := by
  intro header
  induction header with
  | nil => intro j hj; simp at hj
  | cons c rest ih =>
    intro j hj
    cases j with
    | zero => rfl
    | succ k =>
        simp only [CSVParser.parseHeaderForType, List.map_cons,
          List.getD_cons_succ]
        exact ih k (by simpa using hj)

theorem parseRowCols_skip (opts : CSVParserOpts) (fieldMap : List (List Nat))
    (cell : String) (rest : List String) (j : Nat) (acc : GoValue)
    (h : fieldMap.getD j [] = [] ∨ cell = "") :
    parseRowCols opts fieldMap (cell :: rest) j acc =
      parseRowCols opts fieldMap rest (j + 1) acc := by
  rw [parseRowCols, if_pos h]

theorem parseRowCols_all_skip (opts : CSVParserOpts)
    (fieldMap : List (List Nat)) : ∀ (row : List String) (j : Nat)
    (acc : GoValue),
    (∀ k, k < row.length → (fieldMap.getD (j + k) [] = [] ∨ row.getD k "" = "")) →
    parseRowCols opts fieldMap row j acc = .okRec acc := by
  intro row
  induction row with
  | nil => intro j acc _; rfl
  | cons cell rest ih =>
    intro j acc h
    have h0 := h 0 (by simp)
    simp only [Nat.add_zero, List.getD_cons_zero] at h0
    rw [parseRowCols_skip opts fieldMap cell rest j acc h0]
    apply ih
    intro k hk
    have hks := h (k + 1) (by simpa using Nat.succ_lt_succ hk)
    have heq : j + (k + 1) = (j + 1) + k := by omega
    rw [heq] at hks
    simpa using hks

/-- C4, counterexample.  The claim says a column whose trimmed header cell
matches no csv-tagged field gets the empty path.  For a record shape with
one *untagged* string field, `reflect.StructTag.Get("csv")` reports the
empty string, so a whitespace-only header cell — whose trimmed form is the
empty string — matches that untagged field: the column gets path `[0]`,
not the empty path, and at decode time a non-empty cell in that column
overwrites the field. -/
theorem csv_untagged_header_counterexample :
    CSVParser.parseHeaderForType [" "]
        (.fcons "" (.scalar .sString) .fnil) = [[0]] ∧
    CSVParser.parseHeaderForType [" "]
        (.fcons "" (.scalar .sString) .fnil) ≠ [[]] ∧
    CSVParser.parseRowWithFieldMap defaultCSVOpts ["x"] [[0]]
        (.fcons "" (.scalar .sString) .fnil) =
      .okRec (.strucV (.vcons (.scalarV (.vString "x")) .vnil)) := by
  refine ⟨rfl, by decide, rfl⟩

/-- C4, amended.  The descriptor build maps each header column to exactly
one field path: the result of matching the column's trimmed cell against
each field's `csv` tag, where a missing tag reads as the empty string (so
an empty trimmed cell can match an untagged field) and struct-typed fields
are searched recursively depth-first; a cell the search does not find
yields the empty path.  At decode time a column with the empty path, or an
empty cell, is skipped — the record is left untouched by that column — so
a row all of whose columns are skipped leaves every field at its zero
value. -/
theorem csv_descriptor_and_skip (header : List String) (fields : FieldList)
    (opts : CSVParserOpts) (fieldMap : List (List Nat)) (row : List String)
    (ty : FieldList) :
    (CSVParser.parseHeaderForType header fields).length = header.length ∧
    (∀ j, j < header.length →
      (CSVParser.parseHeaderForType header fields).getD j [] =
        (findFieldInStruct (goTrimSpace (header.getD j "")) fields).1) ∧
    (∀ s, (findFieldInStruct s fields).2 = false →
      (findFieldInStruct s fields).1 = []) ∧
    (∀ cell rest j acc, (fieldMap.getD j [] = [] ∨ cell = "") →
      parseRowCols opts fieldMap (cell :: rest) j acc =
        parseRowCols opts fieldMap rest (j + 1) acc) ∧
    ((∀ j, j < row.length → (fieldMap.getD j [] = [] ∨ row.getD j "" = "")) →
      CSVParser.parseRowWithFieldMap opts row fieldMap ty =
        .okRec (.strucV (zeroValues ty))) := by
  refine ⟨by simp [CSVParser.parseHeaderForType],
    fun j hj => parseHeaderForType_getD fields header j hj,
    fun s => findFieldFrom_not_found s 0 fields,
    fun cell rest j acc h => parseRowCols_skip opts fieldMap cell rest j acc h,
    fun h => ?_⟩
  rw [CSVParser.parseRowWithFieldMap]
  apply parseRowCols_all_skip
  intro k hk
  simpa using h k hk

/-- C4, witness for `csv_descriptor_and_skip`: shape `{Name string
`csv:"name"`}`, header `["name", "extra"]` — the matched column gets path
`[0]`, the unknown column the empty path — and the row `["", ""]` leaves
the record at its zero value. -/
theorem csv_descriptor_and_skip_witness :
    (CSVParser.parseHeaderForType ["name", "extra"]
        (.fcons "name" (.scalar .sString) .fnil)).length = 2 ∧
    (CSVParser.parseHeaderForType ["name", "extra"]
        (.fcons "name" (.scalar .sString) .fnil)).getD 1 [] =
      (findFieldInStruct (goTrimSpace "extra")
        (.fcons "name" (.scalar .sString) .fnil)).1 ∧
    CSVParser.parseRowWithFieldMap defaultCSVOpts ["", ""]
        [[0], []] (.fcons "name" (.scalar .sString) .fnil) =
      .okRec (.strucV (zeroValues (.fcons "name" (.scalar .sString) .fnil))) :=
  ⟨(csv_descriptor_and_skip ["name", "extra"]
      (.fcons "name" (.scalar .sString) .fnil) defaultCSVOpts [[0], []]
      ["", ""] (.fcons "name" (.scalar .sString) .fnil)).1,
   (csv_descriptor_and_skip ["name", "extra"]
      (.fcons "name" (.scalar .sString) .fnil) defaultCSVOpts [[0], []]
      ["", ""] (.fcons "name" (.scalar .sString) .fnil)).2.1 1 (by decide),
   (csv_descriptor_and_skip ["name", "extra"]
      (.fcons "name" (.scalar .sString) .fnil) defaultCSVOpts [[0], []]
      ["", ""] (.fcons "name" (.scalar .sString) .fnil)).2.2.2.2
      (by
        intro j hj
        simp only [List.length_cons, List.length_nil] at hj
        interval_cases j <;> simp)⟩

/-- C5.  With `abort_on_error = false`: a `*csv.ParseError` whose inner
error is the field-count mismatch, or a `*CSVDecodeError` (a cell that
could not be coerced), is logged at warning level and the worker continues
with the next row; an error of any other kind is published on the
controller's error channel and terminates the worker. -/
theorem csv_error_policy (m : String) (e : GoCSVError)
    (rest : List GoCSVError) (h : isPerRowError e = false) :
    drainDecodeErrors false (.parseError .errFieldCount :: rest) =
      ("Error parsing CSV Row" :: (drainDecodeErrors false rest).1,
       (drainDecodeErrors false rest).2) ∧
    drainDecodeErrors false (.csvDecodeError m :: rest) =
      ("Error decoding CSV Row" :: (drainDecodeErrors false rest).1,
       (drainDecodeErrors false rest).2) ∧
    drainDecodeErrors false (e :: rest) = ([], some e) := by
  refine ⟨rfl, rfl, ?_⟩
  cases e with
  | parseError k =>
      cases k with
      | errFieldCount => simp [isPerRowError] at h
      | errQuote => rfl
      | errBareQuote => rfl
      | errTrailingComma => rfl
  | csvDecodeError m2 => simp [isPerRowError] at h
  | otherError m2 => rfl

/-- C5, witness: a field-count error then an unknown error — the first is
warned, the second published, ending the worker. -/
theorem csv_error_policy_witness :
    isPerRowError (.otherError "io failure") = false ∧
    drainDecodeErrors false [.otherError "io failure"] =
      ([], some (.otherError "io failure")) ∧
    drainDecodeErrors false
        [.parseError .errFieldCount, .otherError "io failure"] =
      (["Error parsing CSV Row"], some (.otherError "io failure")) :=
  ⟨rfl,
   (csv_error_policy "m" (.otherError "io failure") [] rfl).2.2,
   by
    rw [(csv_error_policy "m" (.otherError "io failure")
      [.otherError "io failure"] rfl).1]
    rw [(csv_error_policy "m" (.otherError "io failure") [] rfl).2.2]⟩

/-! ## Map-to-record hydration (src/convert/map.go, src/convert/scalar.go)

`MapToStruct` reads a `map[string]interface{}` into a destination struct.
The destination shape is embedded as a tree of field kinds (the kinds the
source's switch handles, plus `cOther` for kinds it ignores); map values
carry the dynamic types the scalar converters case on — strings, bools,
Go ints, nested maps, and `nil`.  Numeric map values are represented by
`mInt`; float-typed map values are not exercised by any claim.  Floats and
times in the destination are kept as opaque provenance-carrying values,
as in the CSV model. -/

mutual
inductive CType where
  | cString
  | cBool
  | cInt
  | cFloat32
  | cFloat64
  /-- a `time.Time` field (the `reflect.Struct` case's `time.Time`
      branch). -/
  | cTime
  | cStruct (fields : CFieldList)
  /-- a pointer-to-struct field (the `reflect.Ptr` case). -/
  | cPtr (fields : CFieldList)
  /-- any kind without a case in the switch: the field is left
      untouched. -/
  | cOther

inductive CFieldList where
  | cnil
  | ccons (name : String) (tags : List (String × String)) (anonymous : Bool)
      (ty : CType) (rest : CFieldList)
end

mutual
inductive MVal where
  | mString (s : String)
  | mBool (b : Bool)
  | mInt (n : Int)
  | mMap (m : MEntries)
  | mNil
  | mOther

inductive MEntries where
  | menil
  | mecons (key : String) (v : MVal) (rest : MEntries)
end

/-- Go map lookup (keys are unique in a Go map; the first hit wins). -/
def mapGet : MEntries → String → Option MVal
  | .menil, _ => none
  | .mecons k v rest, key => if k = key then some v else mapGet rest key

/-- `reflect.StructTag.Get`: the tag's value, or the empty string when the
tag is absent. -/
def tagGet (tags : List (String × String)) (key : String) : String :=
  match tags.find? (fun p => p.1 = key) with
  | some p => p.2
  | none => ""

/-- `fmt.Sprintf("%v", v)` as used by `ToString`'s default branch,
modelled for the dynamic types in `MVal`. -/
def goFormatV : MVal → String
  | .mString s => s
  | .mBool true => "true"
  | .mBool false => "false"
  | .mInt n => toString n
  | .mNil => "<nil>"
  | .mMap _ => "map[]"
  | .mOther => "{}"

/-- `ToString` (src/convert/scalar.go:12-25): strings pass through, `nil`
(and nil pointers) become the empty string, everything else is formatted
with `%v`. -/
def ToString : MVal → String
  | .mString s => s
  | .mNil => ""
  | v => goFormatV v

/-- `preDecimal` (src/convert/scalar.go:131-133):
`strings.Split(str, ".")[0]`. -/
def preDecimal (s : String) : String :=
  String.mk (s.toList.takeWhile (fun c => c ≠ '.'))

/-- `toParsable` (src/convert/scalar.go:135-139): spaces and commas
removed. -/
def toParsable (s : String) : String :=
  String.mk (s.toList.filter (fun c => c ≠ ' ' && c ≠ ','))

/-- `ToInt` (src/convert/scalar.go:27-37): ints pass through; strings are
parsed after `toParsable`/`preDecimal`, with the parse error discarded
(`result, _ := strconv.Atoi(...)`, so failures yield 0); everything else
is 0. -/
def ToInt : MVal → Int
  | .mInt n => n
  | .mString s => (goParseInt 64 (preDecimal (toParsable s))).getD 0
  | _ => 0

/-- `isZeroVal` (src/convert/scalar.go:141-146): whether the value equals
its type's zero value. -/
def isZeroVal : MVal → Bool
  | .mString s => s = ""
  | .mBool b => b = false
  | .mInt n => n = 0
  | .mNil => true
  | .mMap .menil => true
  | .mMap _ => false
  | .mOther => false

/-- `ToBool` (src/convert/scalar.go:39-56): bools pass through; the
strings `"false"`/`"true"` are read literally; anything else is "not the
zero value". -/
def ToBool : MVal → Bool
  | .mBool b => b
  | .mString s =>
      if s = "false" then false
      else if s = "true" then true
      else !(isZeroVal (.mString s))
  | v => !(isZeroVal v)

/-- A float result, kept syntactic (IEEE semantics are out of scope). -/
inductive GoFloat where
  | fZero
  | fFromInt (n : Int)
  | fParsed (lit : String)
  deriving Repr, DecidableEq

/-- `ToFloat32` (src/convert/scalar.go:58-76): numbers convert; strings
parse via `strconv.ParseFloat` with the error discarded (failures yield
0); everything else is 0. -/
def ToFloat32 : MVal → GoFloat
  | .mInt n => .fFromInt n
  | .mString s =>
      match goParseFloat (toParsable s) with
      | some lit => .fParsed lit
      | none => .fZero
  | _ => .fZero

/-- `ToFloat64` (src/convert/scalar.go:78-96). -/
def ToFloat64 : MVal → GoFloat
  | .mInt n => .fFromInt n
  | .mString s =>
      match goParseFloat (toParsable s) with
      | some lit => .fParsed lit
      | none => .fZero
  | _ => .fZero

/-- A time result, kept as provenance. -/
inductive GoTime where
  | tZero
  | tUnix (n : Int)
  | tParsed (layout : String) (s : String)
  deriving Repr, DecidableEq

def goRFC3339 : String := "2006-01-02T15:04:05Z07:00"

/-- `ToTime` (src/convert/scalar.go:98-120): strings are parsed with the
`format` layout (RFC3339 when empty), the parse error discarded; ints are
unix epochs; everything else is the zero time. -/
def ToTime (v : MVal) (format : String) : GoTime :=
  match v with
  | .mString s =>
      let layout := if format = "" then goRFC3339 else format
      match goTimeParse layout s with
      | some _ => .tParsed layout s
      | none => .tZero
  | .mInt n => .tUnix n
  | _ => .tZero

mutual
inductive CVal where
  | cvString (s : String)
  | cvBool (b : Bool)
  | cvInt (n : Int)
  | cvFloat32 (f : GoFloat)
  | cvFloat64 (f : GoFloat)
  | cvTime (t : GoTime)
  | cvStruct (vs : CVals)
  | cvPtr (vs : Option CVals)
  | cvOther

inductive CVals where
  | cvnil
  | cvcons (v : CVal) (rest : CVals)
end

mutual
/-- The zero value of a destination type. -/
def czero : CType → CVal
  | .cString => .cvString ""
  | .cBool => .cvBool false
  | .cInt => .cvInt 0
  | .cFloat32 => .cvFloat32 .fZero
  | .cFloat64 => .cvFloat64 .fZero
  | .cTime => .cvTime .tZero
  | .cStruct fs => .cvStruct (czeros fs)
  | .cPtr _ => .cvPtr none
  | .cOther => .cvOther

def czeros : CFieldList → CVals
  | .cnil => .cvnil
  | .ccons _ _ _ ty rest => .cvcons (czero ty) (czeros rest)
end

mutual
/-- The field loop of `MapToStruct` (src/convert/map.go:27-72), threading
the destination's current field values (`dest` is mutated in place in the
source; untouched fields keep their prior value). -/
def mapToStructFields (src : MEntries) (lookupTag : String) :
    CFieldList → CVals → Except RuntimePanic CVals
  | .cnil, _ => .ok .cvnil
  | .ccons name tags anon ty rest, dest =>
    match dest with
    | .cvnil => .error .reflectPanic
    | .cvcons dv drest =>
      match mapToStructField src lookupTag name tags anon ty dv with
      | .error p => .error p
      | .ok v2 =>
        match mapToStructFields src lookupTag rest drest with
        | .error p => .error p
        | .ok vs2 => .ok (.cvcons v2 vs2)

/-- One iteration of `MapToStruct`'s loop (src/convert/map.go:28-71): the
read key is the field's `lookupTag` tag when a lookup tag was supplied —
the empty string when the field does not carry that tag — and the field's
declared name only when no lookup tag was supplied.  A missing value on a
non-anonymous field leaves the field untouched; an anonymous field reads
the whole map.  Struct and pointer fields recurse through a fresh zero
allocation (`reflect.New`), with the `srcVal.(map[string]interface{})`
assertion panicking on non-map values. -/
def mapToStructField (src : MEntries) (lookupTag : String) (name : String)
    (tags : List (String × String)) (anon : Bool) (ty : CType) (dv : CVal) :
    Except RuntimePanic CVal :=
  let readKey := if lookupTag = "" then name else tagGet tags lookupTag
  let found := mapGet src readKey
  if found.isNone && !anon then .ok dv
  else
    let srcVal : MVal := if anon then .mMap src else found.getD .mNil
    match ty with
    | .cString => .ok (.cvString (ToString srcVal))
    | .cBool => .ok (.cvBool (ToBool srcVal))
    | .cInt => .ok (.cvInt (ToInt srcVal))
    | .cFloat32 => .ok (.cvFloat32 (ToFloat32 srcVal))
    | .cFloat64 => .ok (.cvFloat64 (ToFloat64 srcVal))
    | .cTime => .ok (.cvTime (ToTime srcVal (tagGet tags "format")))
    | .cStruct fields =>
        match srcVal with
        | .mMap m =>
            match mapToStructFields m lookupTag fields (czeros fields) with
            | .error p => .error p
            | .ok vs => .ok (.cvStruct vs)
        | _ => .error .reflectPanic
    | .cPtr fields =>
        match srcVal with
        | .mMap m =>
            match mapToStructFields m lookupTag fields (czeros fields) with
            | .error p => .error p
            | .ok vs => .ok (.cvPtr (some vs))
        | _ => .error .reflectPanic
    | .cOther => .ok dv
end

/-- `MapToStruct` (src/convert/map.go:16-75): the variadic `lookupKey`
argument becomes the lookup tag when present, the empty string
otherwise. -/
def MapToStruct (src : MEntries) (fields : CFieldList) (dest : CVals)
    (lookupKey : Option String) : Except RuntimePanic CVals :=
  mapToStructFields src (lookupKey.getD "") fields dest

/-- C8, counterexample.  The claim says that with a supplied lookup tag, a
field without that tag falls back to its declared name as the map key.
For destination `{A string}` (no tags), source map `{"A": "hello"}` and
lookup tag `"conv"`, the code reads `Tag.Get("conv") = ""` as the key,
finds nothing under `""`, and skips the field: the result keeps the zero
string instead of `"hello"`. -/
theorem maptostruct_no_name_fallback :
    MapToStruct (.mecons "A" (.mString "hello") .menil)
        (.ccons "A" [] false .cString .cnil)
        (czeros (.ccons "A" [] false .cString .cnil)) (some "conv") =
      .ok (.cvcons (.cvString "") .cvnil) ∧
    MapToStruct (.mecons "A" (.mString "hello") .menil)
        (.ccons "A" [] false .cString .cnil)
        (czeros (.ccons "A" [] false .cString .cnil)) (some "conv") ≠
      .ok (.cvcons (.cvString "hello") .cvnil) := by
  refine ⟨rfl, ?_⟩
  intro h
  rw [show MapToStruct (.mecons "A" (.mString "hello") .menil)
      (.ccons "A" [] false .cString .cnil)
      (czeros (.ccons "A" [] false .cString .cnil)) (some "conv") =
    .ok (.cvcons (.cvString "") .cvnil) from rfl] at h
  injection h with h1
  injection h1 with h2 h3
  injection h2 with h4
  exact absurd h4 (by decide)

/-- C8, amended.  When a lookup tag is supplied, the map key for every
field is the value of that tag — the empty string when the field does not
carry it, so such a field reads key `""` and (when the map has no `""`
entry and the field is not anonymous) is left at its prior value; the
field's declared name is used as the key only when no lookup tag is
supplied at all. -/
theorem maptostruct_readkey (src : MEntries) (name : String)
    (tags : List (String × String)) (ty : CType) (dv : CVal) (t : String)
    (ht : t ≠ "") (hmiss : tagGet tags t = "")
    (hempty : mapGet src "" = none) :
    mapToStructField src t name tags false ty dv = .ok dv ∧
    (∀ v, mapGet src name = some v →
      mapToStructField src "" name tags false .cString dv =
        .ok (.cvString (ToString v))) := by
  constructor
  · rw [mapToStructField]
    simp only [if_neg ht, hmiss, hempty]
    rfl
  · intro v hv
    rw [mapToStructField]
    simp [hv]

/-- C8, witness for `maptostruct_readkey`: lookup tag `"conv"` on an
untagged field named `A` with source map `{"A": "hello"}` — the field is
skipped; with no lookup tag the name is used and the field reads
`"hello"`. -/
theorem maptostruct_readkey_witness :
    mapToStructField (.mecons "A" (.mString "hello") .menil) "conv" "A" []
        false .cString (.cvString "") = .ok (.cvString "") ∧
    mapToStructField (.mecons "A" (.mString "hello") .menil) "" "A" []
        false .cString (.cvString "") = .ok (.cvString "hello") :=
  ⟨(maptostruct_readkey (.mecons "A" (.mString "hello") .menil) "A" []
      .cString (.cvString "") "conv" (by decide) rfl rfl).1,
   (maptostruct_readkey (.mecons "A" (.mString "hello") .menil) "A" []
      .cString (.cvString "") "conv" (by decide) rfl rfl).2
      (.mString "hello") rfl⟩

end Ingest
